import Mathlib

/-!
Verification of the animometer benchmark core (src/animometer.ts).

The development shallowly embeds the uniform-buffer layout arithmetic, the
instance-parameter table construction, the chunked upload loop, the bind-group
ranges, the per-frame command recording (direct and bundled), the frame
driver's time bookkeeping, and the metric smoothing of the source file.
JavaScript doubles are modelled as rationals; `Math.random()` is modelled as
an ambient sequence of rationals in `[0, 1)`; GPU objects are modelled by the
byte ranges and command sequences the source derives for them.
-/

namespace Animometer

/-! ### Uniform buffer layout constants (animometer.ts lines 179-185, 225) -/

/-- `Float32Array.BYTES_PER_ELEMENT`. -/
def bytesPerFloat : Nat := 4

/-- `const uniformBytes = 5 * Float32Array.BYTES_PER_ELEMENT;` (line 179). -/
def uniformBytes : Nat := 5 * bytesPerFloat

/-- `const alignedUniformBytes = Math.ceil(uniformBytes / 256) * 256;`
(line 180); `Math.ceil` of the exact quotient is the rounding-up division. -/
def alignedUniformBytes : Nat := ((uniformBytes + 255) / 256) * 256

/-- `const alignedUniformFloats = alignedUniformBytes / Float32Array.BYTES_PER_ELEMENT;`
(line 181). -/
def alignedUniformFloats : Nat := alignedUniformBytes / bytesPerFloat

/-- Size requested from `device.createBuffer` for the uniform buffer:
`numTriangles * alignedUniformBytes + Float32Array.BYTES_PER_ELEMENT` (line 183). -/
def uniformBufferSize (numTriangles : Nat) : Nat :=
  numTriangles * alignedUniformBytes + bytesPerFloat

/-- `const timeOffset = numTriangles * alignedUniformBytes;` (line 225). -/
def timeOffset (numTriangles : Nat) : Nat := numTriangles * alignedUniformBytes

lemma alignedUniformBytes_eq : alignedUniformBytes = 256 := by
  decide

lemma alignedUniformFloats_eq : alignedUniformFloats = 64 := by
  decide

/-- C1: for the logical per-instance size of 20 bytes, `alignedUniformBytes` is
the least multiple of 256 that is at least 20 (namely 256), the uniform buffer
is allocated with exactly `n * alignedUniformBytes + 4` bytes, and the time
slot offset equals `n * alignedUniformBytes`, immediately after the last
instance slot. -/
theorem alignment_and_buffer_layout :
    uniformBytes = 20 ∧
    alignedUniformBytes = 256 ∧
    uniformBytes ≤ alignedUniformBytes ∧
    256 ∣ alignedUniformBytes ∧
    (∀ m : Nat, 256 ∣ m → uniformBytes ≤ m → alignedUniformBytes ≤ m) ∧
    (∀ n : Nat, uniformBufferSize n = n * alignedUniformBytes + 4) ∧
    (∀ n : Nat, timeOffset n = n * alignedUniformBytes) ∧
    (∀ n : Nat, uniformBufferSize n = timeOffset n + 4) := by
  refine ⟨rfl, by decide, by decide, by decide, ?_, ?_, ?_, ?_⟩
  · intro m hdvd hle
    rcases hdvd with ⟨k, rfl⟩
    have hk : 1 ≤ k := by
      rcases Nat.eq_zero_or_pos k with hk0 | hk0
      · subst hk0; simp [uniformBytes, bytesPerFloat] at hle
      · exact hk0
    calc alignedUniformBytes = 256 * 1 := by decide
    _ ≤ 256 * k := Nat.mul_le_mul_left 256 hk
  · intro n; rfl
  · intro n; rfl
  · intro n; rfl

/-- Witness for C1 at concrete inputs: 512 is a multiple of 256 at least 20,
and the minimality clause instantiated there, together with the layout of a
3-instance buffer. -/
theorem alignment_and_buffer_layout_witness :
    (256 ∣ 512 ∧ uniformBytes ≤ 512 ∧ alignedUniformBytes ≤ 512) ∧
    uniformBufferSize 3 = 772 ∧ timeOffset 3 = 768 := by
  refine ⟨⟨⟨2, rfl⟩, by decide, ?_⟩, ?_, ?_⟩
  · exact alignment_and_buffer_layout.2.2.2.2.1 512 ⟨2, rfl⟩ (by decide)
  · rw [alignment_and_buffer_layout.2.2.2.2.2.1 3, alignedUniformBytes_eq]
  · rw [alignment_and_buffer_layout.2.2.2.2.2.2.1 3, alignedUniformBytes_eq]

/-! ### Bind group ranges (animometer.ts lines 195-238, 262-266) -/

/-- A sub-range of the uniform buffer, in bytes, as supplied to
`device.createBindGroup` resource entries. -/
structure BufferRange where
  offset : Nat
  size : Nat
deriving DecidableEq

/-- Range bound by the static per-instance bind group `bindGroups[i]`:
`offset: i * alignedUniformBytes, size: 6 * Float32Array.BYTES_PER_ELEMENT`
(lines 200-204). -/
def staticBindGroupRange (i : Nat) : BufferRange :=
  { offset := i * alignedUniformBytes, size := 6 * bytesPerFloat }

/-- Base range of the single dynamic bind group:
`offset: 0, size: 6 * Float32Array.BYTES_PER_ELEMENT` (lines 216-219). -/
def dynamicBindGroupBaseRange : BufferRange :=
  { offset := 0, size := 6 * bytesPerFloat }

/-- Range bound by the time bind group: `offset: timeOffset, size: 4`
(lines 231-234). -/
def timeBindGroupRange (numTriangles : Nat) : BufferRange :=
  { offset := timeOffset numTriangles, size := bytesPerFloat }

/-- The range actually addressed when the dynamic bind group is set with
dynamic offset `d`: the base range shifted by `d` (WebGPU dynamic-offset
semantics for `setBindGroup(1, dynamicBindGroup, [d])`, lines 265-266). -/
def dynamicEffectiveRange (d : Nat) : BufferRange :=
  { offset := dynamicBindGroupBaseRange.offset + d
    size := dynamicBindGroupBaseRange.size }

/-- The float32 words a bind-group range exposes from a host image `buf` of
the uniform buffer (`buf k` is the word at byte offset `4 * k`). -/
def paramsAt (buf : Nat → ℚ) (r : BufferRange) : List ℚ :=
  (List.range (r.size / bytesPerFloat)).map (fun j => buf (r.offset / bytesPerFloat + j))

/-- C2: for every instance `i`, the static strategy's `i`-th bind group and
the dynamic bind group under per-draw offset `i * alignedUniformBytes`
reference the identical 24-byte range of the uniform buffer starting at byte
`i * alignedUniformBytes`; hence for any buffer content both binding modes
expose bit-identical per-instance parameter words to the vertex stage (the
vertex output, fade and position included, is a function of those words). -/
theorem static_dynamic_same_range :
    ∀ i : Nat,
      dynamicEffectiveRange (i * alignedUniformBytes) = staticBindGroupRange i ∧
      (staticBindGroupRange i).offset = i * alignedUniformBytes ∧
      (staticBindGroupRange i).size = 24 ∧
      (∀ buf : Nat → ℚ,
        paramsAt buf (dynamicEffectiveRange (i * alignedUniformBytes)) =
          paramsAt buf (staticBindGroupRange i)) := by
  intro i
  have hr : dynamicEffectiveRange (i * alignedUniformBytes) = staticBindGroupRange i := by
    simp [dynamicEffectiveRange, dynamicBindGroupBaseRange, staticBindGroupRange]
  exact ⟨hr, rfl, rfl, fun buf => by rw [hr]⟩

/-! ### Per-frame command recording (animometer.ts lines 254-272, 286-307) -/

/-- One recorded GPU command, as emitted by `recordRenderPass`. -/
inductive Cmd where
  /-- `passEncoder.setPipeline(...)`; `dynamic` tells which of the two
  pipelines was bound (lines 255-259). -/
  | setPipeline (dynamic : Bool)
  /-- `passEncoder.setVertexBuffer(0, vertexBuffer)` (line 260). -/
  | setVertexBuffer
  /-- `passEncoder.setBindGroup(0, timeBindGroup)` (line 261). -/
  | setTimeBindGroup
  /-- `passEncoder.setBindGroup(1, bindGroups[i])` (line 268). -/
  | setStaticBindGroup (i : Nat)
  /-- `passEncoder.setBindGroup(1, dynamicBindGroup, [d])` (line 266). -/
  | setDynamicBindGroup (d : Nat)
  /-- `passEncoder.draw(vertexCount, instanceCount, firstVertex, firstInstance)`
  (line 270). -/
  | draw (vertexCount instanceCount firstVertex firstInstance : Nat)
deriving DecidableEq

/-- The group-1 bind command issued for instance `i` in the loop body
(lines 264-269): dynamic bind with offset `i * alignedUniformBytes` when the
`dynamicOffsets` flag is set, else the `i`-th static bind group. -/
def instanceBindCmd (dynamicOffsets : Bool) (i : Nat) : Cmd :=
  if dynamicOffsets then Cmd.setDynamicBindGroup (i * alignedUniformBytes)
  else Cmd.setStaticBindGroup i

/-- `recordRenderPass` (lines 254-272): the `dynamicOffsets` flag is read from
the mutable `settings` object at recording time, while `numTriangles` (and the
stride) were captured when `configure` ran. -/
def recordRenderPass (dynamicOffsets : Bool) (numTriangles : Nat) : List Cmd :=
  Cmd.setPipeline dynamicOffsets :: Cmd.setVertexBuffer :: Cmd.setTimeBindGroup ::
    (List.range numTriangles).flatMap
      (fun i => [instanceBindCmd dynamicOffsets i, Cmd.draw 3 1 0 0])

/-- The mutable `settings` object (lines 171-175). -/
structure Settings where
  numTriangles : Nat
  renderBundles : Bool
  dynamicOffsets : Bool
deriving DecidableEq

/-- The state closed over by the `doDraw` function a `configure()` call
returns: the captured instance count (line 178), the render bundle recorded at
configure time (lines 286-288), and the `startTime` slot, initially
`undefined` (line 274). -/
structure Config where
  numTriangles : Nat
  bundle : List Cmd
  startTime : Option ℚ
deriving DecidableEq

/-- `configure()` (lines 177-309), restricted to the state the returned
`doDraw` closure captures: snapshots `settings.numTriangles`, bakes the render
bundle from the current flag, and starts with `startTime = undefined`. -/
def configure (s : Settings) : Config :=
  { numTriangles := s.numTriangles
    bundle := recordRenderPass s.dynamicOffsets s.numTriangles
    startTime := none }

/-- The command sequence a frame submits inside the render pass (lines
301-305): replay the baked bundle when `settings.renderBundles` is set,
otherwise re-record with the current `settings.dynamicOffsets` and the
captured `numTriangles`. -/
def frameCommands (cfg : Config) (cur : Settings) : List Cmd :=
  if cur.renderBundles then cfg.bundle
  else recordRenderPass cur.dynamicOffsets cfg.numTriangles

/-- Recognizes a `setPipeline` command. -/
def isPipelineBind : Cmd → Bool
  | Cmd.setPipeline _ => true
  | _ => false

/-- Recognizes the vertex-buffer bind command. -/
def isVertexBufferBind : Cmd → Bool
  | Cmd.setVertexBuffer => true
  | _ => false

/-- Recognizes the time bind-group command. -/
def isTimeBind : Cmd → Bool
  | Cmd.setTimeBindGroup => true
  | _ => false

/-- Recognizes a draw command. -/
def isDraw : Cmd → Bool
  | Cmd.draw _ _ _ _ => true
  | _ => false

/-- The instance loop of `recordRenderPass` (lines 263-271), on its own. -/
def instanceCmds (d : Bool) (n : Nat) : List Cmd :=
  (List.range n).flatMap (fun i => [instanceBindCmd d i, Cmd.draw 3 1 0 0])

lemma recordRenderPass_eq (d : Bool) (n : Nat) :
    recordRenderPass d n =
      Cmd.setPipeline d :: Cmd.setVertexBuffer :: Cmd.setTimeBindGroup ::
        instanceCmds d n := rfl

lemma instanceCmds_succ (d : Bool) (n : Nat) :
    instanceCmds d (n + 1) =
      instanceCmds d n ++ [instanceBindCmd d n, Cmd.draw 3 1 0 0] := by
  simp [instanceCmds, List.range_succ]

lemma length_instanceCmds (d : Bool) (n : Nat) :
    (instanceCmds d n).length = 2 * n := by
  induction n with
  | zero => rfl
  | succ n ih => rw [instanceCmds_succ, List.length_append, ih]; simp; omega

lemma getElem?_instanceCmds (d : Bool) (n : Nat) (i : Nat) (hi : i < n) :
    (instanceCmds d n)[2 * i]? = some (instanceBindCmd d i) ∧
    (instanceCmds d n)[2 * i + 1]? = some (Cmd.draw 3 1 0 0) := by
  induction n with
  | zero => omega
  | succ n ih =>
    rw [instanceCmds_succ]
    rcases Nat.lt_or_ge i n with hlt | hge
    · have h1 : 2 * i < (instanceCmds d n).length := by rw [length_instanceCmds]; omega
      have h2 : 2 * i + 1 < (instanceCmds d n).length := by rw [length_instanceCmds]; omega
      rw [List.getElem?_append_left h1, List.getElem?_append_left h2]
      exact ih hlt
    · have hin : i = n := by omega
      subst hin
      have h1 : (instanceCmds d i).length ≤ 2 * i := by rw [length_instanceCmds]
      have h2 : (instanceCmds d i).length ≤ 2 * i + 1 := by rw [length_instanceCmds]; omega
      rw [List.getElem?_append_right h1, List.getElem?_append_right h2,
        length_instanceCmds]
      constructor
      · simp
      · have he : 2 * i + 1 - 2 * i = 1 := by omega
        rw [he]; simp

lemma countP_instanceCmds_pipeline (d : Bool) (n : Nat) :
    (instanceCmds d n).countP isPipelineBind = 0 := by
  induction n with
  | zero => rfl
  | succ n ih =>
    rw [instanceCmds_succ, List.countP_append, ih]
    cases d <;> simp [instanceBindCmd, isPipelineBind, List.countP_cons]

lemma countP_instanceCmds_vertex (d : Bool) (n : Nat) :
    (instanceCmds d n).countP isVertexBufferBind = 0 := by
  induction n with
  | zero => rfl
  | succ n ih =>
    rw [instanceCmds_succ, List.countP_append, ih]
    cases d <;> simp [instanceBindCmd, isVertexBufferBind, List.countP_cons]

lemma countP_instanceCmds_time (d : Bool) (n : Nat) :
    (instanceCmds d n).countP isTimeBind = 0 := by
  induction n with
  | zero => rfl
  | succ n ih =>
    rw [instanceCmds_succ, List.countP_append, ih]
    cases d <;> simp [instanceBindCmd, isTimeBind, List.countP_cons]

lemma countP_instanceCmds_draw (d : Bool) (n : Nat) :
    (instanceCmds d n).countP isDraw = n := by
  induction n with
  | zero => rfl
  | succ n ih =>
    rw [instanceCmds_succ, List.countP_append, ih]
    cases d <;> simp [instanceBindCmd, isDraw, List.countP_cons]

/-- C3: for every flag and instance count, the recorded sequence is one
pipeline bind, one vertex-buffer bind, one time-bind-group bind, then for each
instance `i` in ascending order one group-1 bind (static group `i`, or the
dynamic group at offset `i * alignedUniformBytes`) and one non-indexed
3-vertex draw — with exactly one pipeline bind, one vertex-buffer bind, one
time bind and exactly `n` draws in total; and for a fixed configuration the
sequence the direct path re-records equals the bundle captured at configure
time. -/
theorem render_sequence_shape_and_bundle_equiv :
    ∀ (d : Bool) (n : Nat),
      (recordRenderPass d n).length = 3 + 2 * n ∧
      (recordRenderPass d n)[0]? = some (Cmd.setPipeline d) ∧
      (recordRenderPass d n)[1]? = some Cmd.setVertexBuffer ∧
      (recordRenderPass d n)[2]? = some Cmd.setTimeBindGroup ∧
      (∀ i, i < n →
        (recordRenderPass d n)[3 + 2 * i]? = some (instanceBindCmd d i) ∧
        (recordRenderPass d n)[4 + 2 * i]? = some (Cmd.draw 3 1 0 0)) ∧
      (∀ i, instanceBindCmd true i = Cmd.setDynamicBindGroup (i * alignedUniformBytes) ∧
            instanceBindCmd false i = Cmd.setStaticBindGroup i) ∧
      (recordRenderPass d n).countP isPipelineBind = 1 ∧
      (recordRenderPass d n).countP isVertexBufferBind = 1 ∧
      (recordRenderPass d n).countP isTimeBind = 1 ∧
      (recordRenderPass d n).countP isDraw = n ∧
      (∀ s : Settings,
        frameCommands (configure s) { s with renderBundles := false } =
          (configure s).bundle) := by
  intro d n
  refine ⟨?_, by simp [recordRenderPass_eq], by simp [recordRenderPass_eq],
    by simp [recordRenderPass_eq], ?_, fun i => ⟨rfl, rfl⟩, ?_, ?_, ?_, ?_, ?_⟩
  · rw [recordRenderPass_eq]
    simp [length_instanceCmds]
    omega
  · intro i hi
    have h := getElem?_instanceCmds d n i hi
    rw [recordRenderPass_eq]
    have h3 : 3 + 2 * i = 2 * i + 3 := by omega
    have h4 : 4 + 2 * i = (2 * i + 1) + 3 := by omega
    rw [h3, h4]
    simpa using h
  · rw [recordRenderPass_eq]
    simp [List.countP_cons, isPipelineBind, isVertexBufferBind, isTimeBind,
      countP_instanceCmds_pipeline]
  · rw [recordRenderPass_eq]
    simp [List.countP_cons, isPipelineBind, isVertexBufferBind, isTimeBind,
      countP_instanceCmds_vertex]
  · rw [recordRenderPass_eq]
    simp [List.countP_cons, isPipelineBind, isVertexBufferBind, isTimeBind,
      countP_instanceCmds_time]
  · rw [recordRenderPass_eq]
    simp [List.countP_cons, isPipelineBind, isVertexBufferBind, isTimeBind, isDraw,
      countP_instanceCmds_draw]
  · intro s
    simp [frameCommands, configure]

/-- Witness for C3 at a concrete input: instance 1 of a 2-instance static
recording sits at positions 5 and 6 of the sequence. -/
theorem render_sequence_shape_witness :
    (1 < 2) ∧
    (recordRenderPass false 2)[3 + 2 * 1]? = some (instanceBindCmd false 1) ∧
    (recordRenderPass false 2)[4 + 2 * 1]? = some (Cmd.draw 3 1 0 0) := by
  refine ⟨by decide, ?_, ?_⟩
  · exact ((render_sequence_shape_and_bundle_equiv false 2).2.2.2.2.1 1 (by decide)).1
  · exact ((render_sequence_shape_and_bundle_equiv false 2).2.2.2.2.1 1 (by decide)).2

/-- C10: the direct path records with the `dynamicOffsets` flag read from the
mutable settings at frame time, while the instance count and the bundle were
captured at configure time; the frame's pipeline command tracks the current
flag, the draw count tracks the captured count, and the direct sequence equals
the captured bundle exactly when the flag is unchanged since `configure`. -/
theorem direct_path_tracks_flag :
    ∀ (s : Settings) (n2 : Nat) (d : Bool),
      frameCommands (configure s) ⟨n2, false, d⟩ = recordRenderPass d s.numTriangles ∧
      (frameCommands (configure s) ⟨n2, false, d⟩)[0]? = some (Cmd.setPipeline d) ∧
      (frameCommands (configure s) ⟨n2, false, d⟩).countP isDraw = s.numTriangles ∧
      (frameCommands (configure s) ⟨n2, false, d⟩ = (configure s).bundle ↔
        d = s.dynamicOffsets) := by
  intro s n2 d
  have hfc : frameCommands (configure s) ⟨n2, false, d⟩ =
      recordRenderPass d s.numTriangles := by
    simp [frameCommands, configure]
  refine ⟨hfc, by rw [hfc]; rfl, ?_, ?_⟩
  · rw [hfc, recordRenderPass_eq]
    simp [List.countP_cons, isDraw, countP_instanceCmds_draw]
  · rw [hfc]
    constructor
    · intro h
      have hb : (configure s).bundle = recordRenderPass s.dynamicOffsets s.numTriangles := rfl
      rw [hb] at h
      have hhead : (recordRenderPass d s.numTriangles)[0]? =
          (recordRenderPass s.dynamicOffsets s.numTriangles)[0]? := by rw [h]
      simpa [recordRenderPass_eq] using hhead
    · intro h
      subst h
      rfl

/-- Witness for C10 at a concrete configuration: with the flag unchanged, the
direct path of a 2-instance dynamic configuration reproduces its bundle. -/
theorem direct_path_tracks_flag_witness :
    frameCommands (configure ⟨2, false, true⟩) ⟨2, false, true⟩ =
      (configure ⟨2, false, true⟩).bundle :=
  ((direct_path_tracks_flag ⟨2, false, true⟩ 2 true).2.2.2).mpr rfl

/-! ### Frame driver time bookkeeping (animometer.ts lines 290-295, 359-364) -/

/-- One invocation of the returned `doDraw(timestamp)` closure, restricted to
its time bookkeeping (lines 290-295): seed `startTime` from the first
timestamp, then write `(timestamp - startTime) / 1000` to the time uniform.
Returns the updated closure state and the value written. -/
def doDrawTick (cfg : Config) (timestamp : ℚ) : Config × ℚ :=
  match cfg.startTime with
  | none => ({ cfg with startTime := some timestamp }, (timestamp - timestamp) / 1000)
  | some s0 => (cfg, (timestamp - s0) / 1000)

/-- The `frame` callback's inter-frame delta (lines 360-363): `0` when
`previousFrameTimestamp` is still `undefined`, else the difference. -/
def interFrameDelta (previousFrameTimestamp : Option ℚ) (timestamp : ℚ) : ℚ :=
  match previousFrameTimestamp with
  | none => 0
  | some p => timestamp - p

/-- C6: the first tick at any timestamp `t0` records `startTime = t0` and
writes elapsed time `0` regardless of the absolute value of `t0`; a later tick
at `t0 + 1000` milliseconds writes `1.0` second; and the inter-frame delta is
`0` on the very first frame, when no previous timestamp exists. -/
theorem frame_driver_first_tick :
    ∀ (cfg : Config) (t0 : ℚ),
      cfg.startTime = none →
      (doDrawTick cfg t0).1.startTime = some t0 ∧
      (doDrawTick cfg t0).2 = 0 ∧
      (doDrawTick (doDrawTick cfg t0).1 (t0 + 1000)).2 = 1 ∧
      interFrameDelta none t0 = 0 := by
  intro cfg t0 h0
  refine ⟨?_, ?_, ?_, rfl⟩
  · simp [doDrawTick, h0]
  · simp [doDrawTick, h0]
  · simp only [doDrawTick, h0]
    norm_num

/-- Witness for C6: the first tick at timestamp `-5` (the absolute value does
not matter) writes `0`, and a tick 1000 ms later writes `1`. -/
theorem frame_driver_first_tick_witness :
    (configure ⟨1, false, false⟩).startTime = none ∧
    (doDrawTick (configure ⟨1, false, false⟩) (-5)).1.startTime = some (-5) ∧
    (doDrawTick (configure ⟨1, false, false⟩) (-5)).2 = 0 ∧
    (doDrawTick (doDrawTick (configure ⟨1, false, false⟩) (-5)).1 ((-5) + 1000)).2 = 1 := by
  have h := frame_driver_first_tick (configure ⟨1, false, false⟩) (-5) rfl
  exact ⟨rfl, h.1, h.2.1, h.2.2.1⟩

/-- C9: every `configure()` call returns a draw closure whose `startTime` is
the fresh `undefined` of line 274, so after any reconfiguration the first tick
re-seeds `startTime` from its own timestamp and writes elapsed time `0`,
instead of continuing the previous configuration's clock. -/
theorem reconfigure_resets_start_time :
    ∀ (s : Settings) (t : ℚ),
      (configure s).startTime = none ∧
      (doDrawTick (configure s) t).1.startTime = some t ∧
      (doDrawTick (configure s) t).2 = 0 := by
  intro s t
  exact ⟨rfl, by simp [configure, doDrawTick], by simp [configure, doDrawTick]⟩

/-! ### Exponential smoothing of the timing metrics (animometer.ts lines 369-377) -/

/-- The smoothing weight `w = 0.2` (line 375). -/
def smoothingWeight : ℚ := 2 / 10

/-- One metric update (lines 369-377): an `undefined` average is first seeded
to the sample, then `avg = (1 - w) * avg + w * sample` is applied. -/
def updateAvg (avg : Option ℚ) (sample : ℚ) : ℚ :=
  (1 - smoothingWeight) * avg.getD sample + smoothingWeight * sample

/-- Iterated updates feeding the same sample, starting from a present
average `a`. -/
def iterAvg (a sample : ℚ) : Nat → ℚ
  | 0 => a
  | n + 1 => updateAvg (some (iterAvg a sample n)) sample

/-- C7: each frame applies `avg = 0.8 * avg + 0.2 * sample`, seeding the
average with the first sample on first use, so the first update returns the
first sample exactly; repeating the same sample keeps the average at a fixed
value once reached, and from any starting average the distance to the sample
contracts by a factor `0.8` per update, so it converges to the sample. -/
theorem exp_average_smoothing :
    (∀ sample : ℚ, updateAvg none sample = sample) ∧
    (∀ sample : ℚ, updateAvg (some sample) sample = sample) ∧
    (∀ (a sample : ℚ) (n : Nat),
      iterAvg a sample n - sample = (8 / 10) ^ n * (a - sample)) ∧
    (∀ (sample : ℚ) (n : Nat), iterAvg sample sample n = sample) := by
  have hfix : ∀ sample : ℚ, updateAvg (some sample) sample = sample := by
    intro sample
    simp only [updateAvg, smoothingWeight, Option.getD_some]
    ring
  have hiter : ∀ (a sample : ℚ) (n : Nat),
      iterAvg a sample n - sample = (8 / 10) ^ n * (a - sample) := by
    intro a sample n
    induction n with
    | zero => simp [iterAvg]
    | succ n ih =>
      have : iterAvg a sample (n + 1) - sample =
          (8 / 10) * (iterAvg a sample n - sample) := by
        simp only [iterAvg, updateAvg, smoothingWeight, Option.getD_some]
        ring
      rw [this, ih, pow_succ]
      ring
  refine ⟨?_, hfix, hiter, ?_⟩
  · intro sample
    simp only [updateAvg, Option.getD_none, smoothingWeight]
    ring
  · intro sample n
    have h := hiter sample sample n
    simp only [sub_self, mul_zero] at h
    linarith [h]

/-! ### Chunked upload loop (animometer.ts lines 240-252) -/

/-- `const maxMappingLength = (14 * 1024 * 1024) / Float32Array.BYTES_PER_ELEMENT;`
(line 240): the transfer ceiling, in float32 elements. -/
def maxMappingLength : Nat := 14 * 1024 * 1024 / bytesPerFloat

lemma maxMappingLength_eq : maxMappingLength = 3670016 := by decide

/-- The upload loop of lines 241-252. Each iteration at loop variable
`offset` emits a sub-transfer `(offset, uploadCount)` (in float32 elements,
with `uploadCount = min(len - offset, maxMappingLength)`) and advances
`offset` by `maxMappingLength`; the loop runs while `offset < len`. The
emitted `writeBuffer` call places the `uploadCount * 4` bytes starting at
source byte `offset * 4` at destination byte `offset * 4`. The first argument
is fuel bounding the iteration count: since `maxMappingLength ≥ 1`, the loop
performs at most `len - offset` iterations, so with sufficient fuel the guard
`offset < len`, never the fuel, terminates the loop (all lemmas below assume
`len - offset ≤ fuel`). -/
def uploadChunksAux : Nat → Nat → Nat → List (Nat × Nat)
  | 0, _, _ => []
  | fuel + 1, len, offset =>
    if offset < len then
      (offset, min (len - offset) maxMappingLength) ::
        uploadChunksAux fuel len (offset + maxMappingLength)
    else []

/-- The full upload loop, entered with `offset = 0` (line 241), with enough
fuel for its iterations. -/
def uploadChunks (len : Nat) : List (Nat × Nat) := uploadChunksAux len len 0

/-- The bytes of a sub-transfer list, concatenated in emission order: chunk
`(o, c)` contributes source elements `o, o+1, ..., o+c-1`. -/
def concatChunks (src : Nat → ℚ) : List (Nat × Nat) → List ℚ
  | [] => []
  | c :: rest => (List.range c.2).map (fun j => src (c.1 + j)) ++ concatChunks src rest

/-- Contiguity of a sub-transfer list starting at `o`: every chunk is
non-empty, starts exactly where the previous one ended (no gap, no overlap),
hence offsets are strictly ascending. -/
def contiguousFrom (o : Nat) : List (Nat × Nat) → Prop
  | [] => True
  | c :: rest => c.1 = o ∧ 0 < c.2 ∧ contiguousFrom (c.1 + c.2) rest

lemma uploadChunksAux_stop (fuel len offset : Nat) (h : len ≤ offset) :
    uploadChunksAux fuel len offset = [] := by
  cases fuel with
  | zero => rfl
  | succ fuel => simp [uploadChunksAux, Nat.not_lt.mpr h]

lemma uploadChunksAux_step (fuel len offset : Nat) (h : offset < len) :
    uploadChunksAux (fuel + 1) len offset =
      (offset, min (len - offset) maxMappingLength) ::
        uploadChunksAux fuel len (offset + maxMappingLength) := by
  simp [uploadChunksAux, h]

lemma concatChunks_uploadChunksAux (src : Nat → ℚ) (len : Nat) :
    ∀ (fuel offset : Nat), len - offset ≤ fuel →
      concatChunks src (uploadChunksAux fuel len offset) =
        (List.range (len - offset)).map (fun j => src (offset + j)) := by
  intro fuel
  induction fuel with
  | zero =>
    intro offset hd
    have h0 : len - offset = 0 := by omega
    simp [uploadChunksAux, concatChunks, h0]
  | succ fuel ih =>
    intro offset hd
    rcases Nat.lt_or_ge offset len with h | h
    · rw [uploadChunksAux_step fuel len offset h]
      have hm : maxMappingLength = 3670016 := rfl
      rcases le_or_lt (len - offset) maxMappingLength with hsmall | hbig
      · have hmin : min (len - offset) maxMappingLength = len - offset :=
          Nat.min_eq_left hsmall
        have hstop : uploadChunksAux fuel len (offset + maxMappingLength) = [] :=
          uploadChunksAux_stop fuel len _ (by omega)
        rw [hstop]
        simp [concatChunks, hmin]
      · have hmin : min (len - offset) maxMappingLength = maxMappingLength :=
          Nat.min_eq_right (Nat.le_of_lt hbig)
        have hrec : concatChunks src (uploadChunksAux fuel len (offset + maxMappingLength)) =
            (List.range (len - (offset + maxMappingLength))).map
              (fun j => src (offset + maxMappingLength + j)) := by
          apply ih
          omega
        have hsplit : len - offset = maxMappingLength + (len - (offset + maxMappingLength)) := by
          omega
        have hfe : ((fun j => src (offset + j)) ∘ (fun x => maxMappingLength + x)) =
            (fun j => src (offset + maxMappingLength + j)) := by
          funext j
          simp only [Function.comp_apply]
          congr 1
          omega
        simp only [concatChunks, hmin, hrec]
        rw [hsplit, List.range_add, List.map_append, List.map_map, hfe]
    · rw [uploadChunksAux_stop (fuel + 1) len offset h]
      have h0 : len - offset = 0 := by omega
      simp [concatChunks, h0]

lemma contiguousFrom_uploadChunksAux (len : Nat) :
    ∀ (fuel offset : Nat), len - offset ≤ fuel →
      contiguousFrom offset (uploadChunksAux fuel len offset) := by
  intro fuel
  induction fuel with
  | zero =>
    intro offset hd
    rw [uploadChunksAux_stop 0 len offset (by omega)]
    trivial
  | succ fuel ih =>
    intro offset hd
    rcases Nat.lt_or_ge offset len with h | h
    · rw [uploadChunksAux_step fuel len offset h]
      have hm : maxMappingLength = 3670016 := rfl
      refine ⟨rfl, by omega, ?_⟩
      rcases le_or_lt (len - offset) maxMappingLength with hsmall | hbig
      · have hmin : min (len - offset) maxMappingLength = len - offset :=
          Nat.min_eq_left hsmall
        rw [hmin, uploadChunksAux_stop fuel len (offset + maxMappingLength) (by omega)]
        have harith : offset + (len - offset) = len := by omega
        rw [harith]
        trivial
      · have hmin : min (len - offset) maxMappingLength = maxMappingLength :=
          Nat.min_eq_right (Nat.le_of_lt hbig)
        rw [hmin]
        exact ih (offset + maxMappingLength) (by omega)
    · rw [uploadChunksAux_stop (fuel + 1) len offset h]
      trivial

lemma uploadChunksAux_le_ceiling (len : Nat) :
    ∀ (fuel offset : Nat),
      ∀ c ∈ uploadChunksAux fuel len offset, c.2 ≤ maxMappingLength := by
  intro fuel
  induction fuel with
  | zero =>
    intro offset c hc
    simp [uploadChunksAux] at hc
  | succ fuel ih =>
    intro offset c hc
    rcases Nat.lt_or_ge offset len with h | h
    · rw [uploadChunksAux_step fuel len offset h] at hc
      rcases List.mem_cons.mp hc with hc1 | hc2
      · subst hc1
        exact Nat.min_le_right _ _
      · exact ih (offset + maxMappingLength) c hc2
    · rw [uploadChunksAux_stop (fuel + 1) len offset h] at hc
      simp at hc

/-- C4 (amended): the upload loop emits sub-transfers in ascending offset
order, contiguous with no gaps and no overlaps, each of at most
`maxMappingLength` elements (14 MiB of bytes); their concatenation in emission
order reconstructs the source payload element-exactly, each chunk written at
the destination offset equal to its source offset; a nonempty payload not
exceeding the ceiling is sent as a single transfer, and an empty payload
produces no transfer at all. -/
theorem chunked_upload_covers :
    ∀ (len : Nat) (src : Nat → ℚ),
      concatChunks src (uploadChunks len) = (List.range len).map src ∧
      contiguousFrom 0 (uploadChunks len) ∧
      (∀ c ∈ uploadChunks len, c.2 ≤ maxMappingLength ∧
        c.2 * bytesPerFloat ≤ 14 * 1024 * 1024) ∧
      (0 < len → len ≤ maxMappingLength → uploadChunks len = [(0, len)]) ∧
      uploadChunks 0 = [] := by
  intro len src
  refine ⟨?_, ?_, ?_, ?_, rfl⟩
  · have h := concatChunks_uploadChunksAux src len len 0 (by omega)
    simpa using h
  · exact contiguousFrom_uploadChunksAux len len 0 (by omega)
  · intro c hc
    have h1 := uploadChunksAux_le_ceiling len len 0 c hc
    refine ⟨h1, ?_⟩
    have hm : maxMappingLength = 3670016 := rfl
    have hb : c.2 * bytesPerFloat = c.2 * 4 := rfl
    rw [hb]
    omega
  · intro hpos hle
    obtain ⟨k, rfl⟩ : ∃ k, len = k + 1 := ⟨len - 1, by omega⟩
    rw [uploadChunks, uploadChunksAux_step k (k + 1) 0 hpos,
      uploadChunksAux_stop k (k + 1) (0 + maxMappingLength) (by omega)]
    simp [Nat.min_eq_left hle]

/-- Witness for C4 at a concrete input: a 7-element payload is within the
ceiling and goes out as the single transfer `(0, 7)`. -/
theorem chunked_upload_covers_witness :
    (0 < 7 ∧ 7 ≤ maxMappingLength) ∧ uploadChunks 7 = [(0, 7)] := by
  refine ⟨⟨by decide, ?_⟩, ?_⟩
  · rw [maxMappingLength_eq]; omega
  · exact (chunked_upload_covers 7 (fun _ => 0)).2.2.2.1 (by decide)
      (by rw [maxMappingLength_eq]; omega)

/-- Counterexample to C4 as stated: it is not true that every payload not
exceeding the transfer ceiling is sent as a single transfer — the empty
payload (instance count 0) yields no transfer at all. -/
theorem empty_payload_no_transfer :
    ¬ (∀ len : Nat, len ≤ maxMappingLength → (uploadChunks len).length = 1) := by
  intro h
  have h0 := h 0 (by rw [maxMappingLength_eq]; omega)
  simp [uploadChunks, uploadChunksAux] at h0

/-! ### Instance parameter table (animometer.ts lines 186-194) -/

/-- One store into the host `Float32Array` image: `buf[idx] = v`. The image is
a total map from float index (byte offset / 4) to value. -/
def writeF32 (buf : Nat → ℚ) (idx : Nat) (v : ℚ) : Nat → ℚ :=
  fun j => if j = idx then v else buf j

/-- Loop body for instance `i` (lines 189-193): the five random parameter
fields are stored at float indices `alignedUniformFloats * i + 0 .. + 4`,
i.e. at byte offsets 0, 4, 8, 12, 16 inside slot `i`. `rnd (5 * i + k)` is
the value of the `k`-th `Math.random()` call of iteration `i`; the decimal
literals 0.2, 0.9, 0.5, 1.5, 10 of the source become the corresponding
rationals. -/
def writeInstance (rnd : Nat → ℚ) (buf : Nat → ℚ) (i : Nat) : Nat → ℚ :=
  writeF32 (writeF32 (writeF32 (writeF32 (writeF32 buf
    (alignedUniformFloats * i + 0) (rnd (5 * i + 0) * (2 / 10) + 2 / 10))
    (alignedUniformFloats * i + 1) (9 / 10 * 2 * (rnd (5 * i + 1) - 1 / 2)))
    (alignedUniformFloats * i + 2) (9 / 10 * 2 * (rnd (5 * i + 2) - 1 / 2)))
    (alignedUniformFloats * i + 3) (rnd (5 * i + 3) * (3 / 2) + 1 / 2))
    (alignedUniformFloats * i + 4) (rnd (5 * i + 4) * 10)

/-- The host buffer `new Float32Array(numTriangles * alignedUniformFloats)`
(line 186, zero-initialised) after the fill loop of lines 188-194; its
logical length is `n * alignedUniformFloats` float32 elements, i.e.
`n * alignedUniformBytes` bytes. -/
def buildInstanceData (rnd : Nat → ℚ) (n : Nat) : Nat → ℚ :=
  (List.range n).foldl (writeInstance rnd) (fun _ => 0)

lemma buildInstanceData_succ (rnd : Nat → ℚ) (n : Nat) :
    buildInstanceData rnd (n + 1) =
      writeInstance rnd (buildInstanceData rnd n) n := by
  simp [buildInstanceData, List.range_succ]

lemma writeInstance_apply_ne (rnd : Nat → ℚ) (buf : Nat → ℚ) (i j : Nat)
    (h : ∀ k, k < 5 → j ≠ alignedUniformFloats * i + k) :
    writeInstance rnd buf i j = buf j := by
  have h0 : j ≠ alignedUniformFloats * i := by simpa using h 0 (by omega)
  have h1 := h 1 (by omega)
  have h2 := h 2 (by omega)
  have h3 := h 3 (by omega)
  have h4 := h 4 (by omega)
  simp [writeInstance, writeF32, h0, h1, h2, h3, h4]

lemma writeInstance_apply_field (rnd : Nat → ℚ) (buf : Nat → ℚ) (i : Nat) :
    writeInstance rnd buf i (alignedUniformFloats * i + 0) =
      rnd (5 * i + 0) * (2 / 10) + 2 / 10 ∧
    writeInstance rnd buf i (alignedUniformFloats * i + 1) =
      9 / 10 * 2 * (rnd (5 * i + 1) - 1 / 2) ∧
    writeInstance rnd buf i (alignedUniformFloats * i + 2) =
      9 / 10 * 2 * (rnd (5 * i + 2) - 1 / 2) ∧
    writeInstance rnd buf i (alignedUniformFloats * i + 3) =
      rnd (5 * i + 3) * (3 / 2) + 1 / 2 ∧
    writeInstance rnd buf i (alignedUniformFloats * i + 4) =
      rnd (5 * i + 4) * 10 := by
  refine ⟨?_, ?_, ?_, ?_, ?_⟩ <;> simp [writeInstance, writeF32]

lemma buildInstanceData_field (rnd : Nat → ℚ) (n i : Nat) (hi : i < n) :
    buildInstanceData rnd n (alignedUniformFloats * i + 0) =
      rnd (5 * i + 0) * (2 / 10) + 2 / 10 ∧
    buildInstanceData rnd n (alignedUniformFloats * i + 1) =
      9 / 10 * 2 * (rnd (5 * i + 1) - 1 / 2) ∧
    buildInstanceData rnd n (alignedUniformFloats * i + 2) =
      9 / 10 * 2 * (rnd (5 * i + 2) - 1 / 2) ∧
    buildInstanceData rnd n (alignedUniformFloats * i + 3) =
      rnd (5 * i + 3) * (3 / 2) + 1 / 2 ∧
    buildInstanceData rnd n (alignedUniformFloats * i + 4) =
      rnd (5 * i + 4) * 10 := by
  induction n with
  | zero => omega
  | succ n ih =>
    rw [buildInstanceData_succ]
    rcases Nat.lt_or_ge i n with h | h
    · have hkeep : ∀ k, k < 5 →
          writeInstance rnd (buildInstanceData rnd n) n (alignedUniformFloats * i + k) =
            buildInstanceData rnd n (alignedUniformFloats * i + k) := by
        intro k hk
        apply writeInstance_apply_ne
        intro m hm
        have h64 : alignedUniformFloats = 64 := rfl
        rw [h64]
        omega
      obtain ⟨f0, f1, f2, f3, f4⟩ := ih h
      exact ⟨by rw [hkeep 0 (by omega)]; exact f0,
        by rw [hkeep 1 (by omega)]; exact f1,
        by rw [hkeep 2 (by omega)]; exact f2,
        by rw [hkeep 3 (by omega)]; exact f3,
        by rw [hkeep 4 (by omega)]; exact f4⟩
    · have hin : i = n := by omega
      subst hin
      exact writeInstance_apply_field rnd (buildInstanceData rnd i) i

lemma buildInstanceData_padding (rnd : Nat → ℚ) (n idx : Nat)
    (h : 5 ≤ idx % alignedUniformFloats) :
    buildInstanceData rnd n idx = 0 := by
  rw [alignedUniformFloats_eq] at h
  induction n with
  | zero => rfl
  | succ n ih =>
    rw [buildInstanceData_succ, writeInstance_apply_ne]
    · exact ih
    · intro k hk
      have h64 : alignedUniformFloats = 64 := rfl
      rw [h64]
      omega

/-- C5 (amended): for every random sequence with values in `[0, 1)` and every
instance count `n`, the host buffer holds exactly `n * alignedUniformBytes`
bytes (`n * alignedUniformFloats` floats of 4 bytes); for every instance
`i < n` the five fields sit at byte offsets 0, 4, 8, 12, 16 inside slot `i`
(so each field lies strictly inside the 20 ≤ 256 leading bytes of its own
slot, overlapping no adjacent slot), carry the source formulas, and fall in
the ranges scale ∈ [0.2, 0.4), offsetX, offsetY ∈ [-0.9, 0.9) (the left
endpoint -0.9 is attained, so the interval is closed there), scalar ∈
[0.5, 2.0), scalarOffset ∈ [0.0, 10.0); and every float of a slot beyond the
first five is never written and stays zero. -/
theorem instance_table_layout :
    ∀ (rnd : Nat → ℚ) (n : Nat),
      (∀ k, 0 ≤ rnd k ∧ rnd k < 1) →
      bytesPerFloat * (n * alignedUniformFloats) = n * alignedUniformBytes ∧
      (∀ i k, i < n → k < 5 →
        bytesPerFloat * (alignedUniformFloats * i + k) =
          i * alignedUniformBytes + bytesPerFloat * k ∧
        bytesPerFloat * k + bytesPerFloat ≤ uniformBytes ∧
        uniformBytes ≤ alignedUniformBytes) ∧
      (∀ i, i < n →
        buildInstanceData rnd n (alignedUniformFloats * i + 0) =
          rnd (5 * i + 0) * (2 / 10) + 2 / 10 ∧
        buildInstanceData rnd n (alignedUniformFloats * i + 1) =
          9 / 10 * 2 * (rnd (5 * i + 1) - 1 / 2) ∧
        buildInstanceData rnd n (alignedUniformFloats * i + 2) =
          9 / 10 * 2 * (rnd (5 * i + 2) - 1 / 2) ∧
        buildInstanceData rnd n (alignedUniformFloats * i + 3) =
          rnd (5 * i + 3) * (3 / 2) + 1 / 2 ∧
        buildInstanceData rnd n (alignedUniformFloats * i + 4) =
          rnd (5 * i + 4) * 10) ∧
      (∀ i, i < n →
        (2 / 10 ≤ buildInstanceData rnd n (alignedUniformFloats * i + 0) ∧
          buildInstanceData rnd n (alignedUniformFloats * i + 0) < 4 / 10) ∧
        (-(9 / 10) ≤ buildInstanceData rnd n (alignedUniformFloats * i + 1) ∧
          buildInstanceData rnd n (alignedUniformFloats * i + 1) < 9 / 10) ∧
        (-(9 / 10) ≤ buildInstanceData rnd n (alignedUniformFloats * i + 2) ∧
          buildInstanceData rnd n (alignedUniformFloats * i + 2) < 9 / 10) ∧
        (1 / 2 ≤ buildInstanceData rnd n (alignedUniformFloats * i + 3) ∧
          buildInstanceData rnd n (alignedUniformFloats * i + 3) < 2) ∧
        (0 ≤ buildInstanceData rnd n (alignedUniformFloats * i + 4) ∧
          buildInstanceData rnd n (alignedUniformFloats * i + 4) < 10)) ∧
      (∀ idx, 5 ≤ idx % alignedUniformFloats → buildInstanceData rnd n idx = 0) := by
  intro rnd n hr
  have h64 : alignedUniformFloats = 64 := rfl
  have h256 : alignedUniformBytes = 256 := rfl
  have h4 : bytesPerFloat = 4 := rfl
  have h20 : uniformBytes = 20 := rfl
  refine ⟨?_, ?_, fun i hi => buildInstanceData_field rnd n i hi, ?_,
    fun idx hidx => buildInstanceData_padding rnd n idx hidx⟩
  · rw [h64, h256, h4]
    ring
  · intro i k hi hk
    rw [h64, h256, h4, h20]
    omega
  · intro i hi
    obtain ⟨f0, f1, f2, f3, f4⟩ := buildInstanceData_field rnd n i hi
    obtain ⟨hr0a, hr0b⟩ := hr (5 * i + 0)
    obtain ⟨hr1a, hr1b⟩ := hr (5 * i + 1)
    obtain ⟨hr2a, hr2b⟩ := hr (5 * i + 2)
    obtain ⟨hr3a, hr3b⟩ := hr (5 * i + 3)
    obtain ⟨hr4a, hr4b⟩ := hr (5 * i + 4)
    rw [f0, f1, f2, f3, f4]
    constructor
    · constructor <;> linarith
    constructor
    · constructor <;> linarith
    constructor
    · constructor <;> linarith
    constructor
    · constructor <;> linarith
    constructor <;> linarith

/-- Witness for C5 at the concrete random sequence constantly `0` and one
instance: the hypothesis holds, scale evaluates to `0.2` and offsetX to
`-0.9`. -/
theorem instance_table_layout_witness :
    (∀ k : Nat, 0 ≤ (fun _ : Nat => (0 : ℚ)) k ∧ (fun _ : Nat => (0 : ℚ)) k < 1) ∧
    buildInstanceData (fun _ => 0) 1 (alignedUniformFloats * 0 + 0) = 2 / 10 ∧
    buildInstanceData (fun _ => 0) 1 (alignedUniformFloats * 0 + 1) = -(9 / 10) := by
  have hr : ∀ k : Nat, 0 ≤ (fun _ : Nat => (0 : ℚ)) k ∧ (fun _ : Nat => (0 : ℚ)) k < 1 := by
    intro k
    norm_num
  have h := instance_table_layout (fun _ => 0) 1 hr
  obtain ⟨f0, f1, _, _, _⟩ := h.2.2.1 0 (by omega)
  refine ⟨hr, ?_, ?_⟩
  · rw [f0]; norm_num
  · rw [f1]; norm_num

/-- Counterexample to C5 as stated: offsetX is not always strictly greater
than `-0.9` — the random draw `0` makes `0.9 * 2 * (0 - 0.5)` exactly `-0.9`,
so the claimed open interval `(-0.9, 0.9)` is wrong at its left endpoint. -/
theorem offsetX_attains_left_endpoint :
    ¬ (∀ rnd : Nat → ℚ, (∀ k, 0 ≤ rnd k ∧ rnd k < 1) →
        -(9 / 10) < buildInstanceData rnd 1 (alignedUniformFloats * 0 + 1)) := by
  intro hcl
  have hr : ∀ k : Nat, 0 ≤ (fun _ : Nat => (0 : ℚ)) k ∧ (fun _ : Nat => (0 : ℚ)) k < 1 := by
    intro k
    norm_num
  have hv : buildInstanceData (fun _ => 0) 1 (alignedUniformFloats * 0 + 1) = -(9 / 10) := by
    obtain ⟨_, f1, _, _, _⟩ := buildInstanceData_field (fun _ => 0) 1 0 (by omega)
    rw [f1]
    norm_num
  have := hcl (fun _ => 0) hr
  rw [hv] at this
  exact lt_irrefl _ this

/-! ### Rejection of invalid instance counts (animometer.ts lines 177-187,
311-315) -/

/-- A JavaScript number as it can reach `settings.numTriangles` from the
`valueAsNumber` of the count input (line 325): a finite value, NaN, or a
signed infinity. -/
inductive JSNum where
  | finite (q : ℚ)
  | nan
  | inf (negative : Bool)
deriving DecidableEq

/-- JavaScript multiplication of the count by the literal stride
(`numTriangles * alignedUniformBytes`, line 183): NaN propagates, an infinity
times the positive literal keeps its sign. -/
def jsMulStride (x : JSNum) : JSNum :=
  match x with
  | JSNum.finite q => JSNum.finite (q * (alignedUniformBytes : ℚ))
  | JSNum.nan => JSNum.nan
  | JSNum.inf b => JSNum.inf b

/-- JavaScript addition of the literal 4 (`+ Float32Array.BYTES_PER_ELEMENT`,
line 183): NaN and infinities absorb the finite addend. -/
def jsAddFour (x : JSNum) : JSNum :=
  match x with
  | JSNum.finite q => JSNum.finite (q + (bytesPerFloat : ℚ))
  | JSNum.nan => JSNum.nan
  | JSNum.inf b => JSNum.inf b

/-- Modelled from the spec: the graphics device collaborator (out of scope of
the source file, §1/§6 of the spec) rejects `device.createBuffer` when the
requested size is not a valid `GPUSize64`: the WebIDL `[EnforceRange]
unsigned long long` conversion throws for NaN and the infinities and for any
value whose truncation toward zero is negative (i.e. any value ≤ -1); the
source calls it at line 182 with the size computed on line 183. -/
def createBufferChecked (size : JSNum) : Except Unit Unit :=
  match size with
  | JSNum.finite q => if -1 < q then Except.ok () else Except.error ()
  | _ => Except.error ()

/-- Modelled from the spec: the host array allocation
`new Array(numTriangles)` (line 187) throws a RangeError unless the length is
a non-negative integer; for such a length it yields that natural number. -/
def arrayLengthChecked (len : JSNum) : Except Unit Nat :=
  match len with
  | JSNum.finite q => if q.den = 1 ∧ 0 ≤ q.num then Except.ok q.num.toNat
      else Except.error ()
  | _ => Except.error ()

/-- `configure()` on a raw JavaScript instance count: the buffer allocation of
lines 182-185 and the array allocation of line 187 run in source order and
either one may throw, aborting the call; on a valid count the call completes
and returns the captured configuration. -/
def configureExc (count : JSNum) (renderBundles dynamicOffsets : Bool) :
    Except Unit Config :=
  match createBufferChecked (jsAddFour (jsMulStride count)) with
  | Except.error e => Except.error e
  | Except.ok _ =>
    match arrayLengthChecked count with
    | Except.error e => Except.error e
    | Except.ok n => Except.ok (configure ⟨n, renderBundles, dynamicOffsets⟩)

/-- The `updateSettings` handler (lines 313-315) runs `doDraw = configure();`
— when `configure()` throws, the assignment never executes, so the previously
returned draw closure stays installed. -/
def updateDoDraw (old : Config) (count : JSNum) (renderBundles dynamicOffsets : Bool) :
    Config :=
  match configureExc count renderBundles dynamicOffsets with
  | Except.ok c => c
  | Except.error _ => old

/-- C8: a negative or non-finite instance count makes `configure()` fail
before any new state is installed, and the previous configuration remains
active and drawable: the installed draw closure and every frame it records
are unchanged. -/
theorem invalid_count_keeps_previous_config :
    ∀ (old : Config) (b d : Bool),
      updateDoDraw old JSNum.nan b d = old ∧
      updateDoDraw old (JSNum.inf true) b d = old ∧
      updateDoDraw old (JSNum.inf false) b d = old ∧
      (∀ q : ℚ, q < 0 →
        updateDoDraw old (JSNum.finite q) b d = old ∧
        (∀ cur : Settings,
          frameCommands (updateDoDraw old (JSNum.finite q) b d) cur =
            frameCommands old cur)) := by
  intro old b d
  refine ⟨rfl, rfl, rfl, ?_⟩
  intro q hq
  have hold : updateDoDraw old (JSNum.finite q) b d = old := by
    simp only [updateDoDraw, configureExc, createBufferChecked, jsAddFour, jsMulStride]
    rcases lt_or_le (-1 : ℚ) (q * (alignedUniformBytes : ℚ) + (bytesPerFloat : ℚ)) with
      hlt | hle
    · rw [if_pos hlt]
      have hnum : ¬ (q.den = 1 ∧ 0 ≤ q.num) := by
        rintro ⟨hden, hnum0⟩
        have hq0 : 0 ≤ q := by
          rw [← Rat.num_div_den q, hden]
          simp only [Nat.cast_one, div_one]
          exact_mod_cast hnum0
        linarith
      simp only [arrayLengthChecked, if_neg hnum]
    · rw [if_neg (not_lt.mpr hle)]
  exact ⟨hold, fun cur => by rw [hold]⟩

/-- Witness for C8: with the one-triangle static configuration installed, a
`configure` attempt with count `-1` leaves it untouched. -/
theorem invalid_count_keeps_previous_config_witness :
    ((-1 : ℚ) < 0) ∧
    updateDoDraw (configure ⟨1, false, false⟩) (JSNum.finite (-1)) false false =
      configure ⟨1, false, false⟩ := by
  refine ⟨by norm_num, ?_⟩
  exact ((invalid_count_keeps_previous_config (configure ⟨1, false, false⟩)
    false false).2.2.2 (-1) (by norm_num)).1

end Animometer



